import Mathlib

/-!
Verification development for the Flux shell core: the lexer / command
splitter, the command lifecycle state machine (`CommandInterface` in
src/src/core/helpers/commands.py), and the job registry (`Processes` in
src/src/core/system/processes.py).

Machine integers do not occur in the modelled fragment; Python ints are
embedded as `Int`, `None`-able fields as `Option`, and Python object
identity of stream objects as `Nat` identifiers.
-/

/-! ## Status codes (src/src/core/system/processes.py, lines 8-10) -/

def STATUS_OK : Int := 0

def STATUS_ERR : Int := 1

/-! ## Lexer

The implementation module `flux.utils.transform` (functions
`string_to_list` / `split_commands`) is not present under src/; only its
unit tests (src/tests/test_utils.py) are.  The definitions below are
therefore modelled from the spec, section 4.1. -/

/-- Flush the word buffer (held reversed) in front of the token list;
an empty buffer yields no token. -/
def emitBuf (buf : List Char) (toks : List String) : List String :=
  if buf.isEmpty then toks else String.mk buf.reverse :: toks

/-- Modelled from the spec: the scanning loop of `tokenize`
(`flux.utils.transform.string_to_list` is missing from src/).  Scan left
to right accumulating a word buffer; whitespace flushes the buffer;
at an operator-introducing position greedily match the longest known
operator among ">>", "<<", digit-then-">", "|", ";" and emit it as one
token; any other character (including a lone ">" or "<") is a word
character. -/
def scanToks : List Char → List Char → List String
  | [], buf => emitBuf buf []
  | [c], buf =>
      if c = '|' then emitBuf buf ["|"]
      else if c = ';' then emitBuf buf [";"]
      else if c.isWhitespace then emitBuf buf []
      else emitBuf (c :: buf) []
  | c1 :: c2 :: cs, buf =>
      if c1 = '>' && c2 = '>' then emitBuf buf (">>" :: scanToks cs [])
      else if c1 = '<' && c2 = '<' then emitBuf buf ("<<" :: scanToks cs [])
      else if c1 = '|' then emitBuf buf ("|" :: scanToks (c2 :: cs) [])
      else if c1 = ';' then emitBuf buf (";" :: scanToks (c2 :: cs) [])
      else if c1.isDigit && c2 = '>' then
        emitBuf buf (String.mk [c1, '>'] :: scanToks cs [])
      else if c1.isWhitespace then emitBuf buf (scanToks (c2 :: cs) [])
      else scanToks (c2 :: cs) (c1 :: buf)

/-- Character-wise lower-casing (Python str.lower on the ASCII command
names the lexer deals with). -/
def lowerStr (s : String) : String :=
  String.mk (s.toList.map Char.toLower)

/-- Modelled from the spec: `tokenize` — full tokenization followed by
lower-casing element 0 only (spec section 4.1; matches the expectations
in src/tests/test_utils.py). -/
def tokenize (raw : String) : List String :=
  match scanToks raw.toList [] with
  | [] => []
  | t :: ts => lowerStr t :: ts

/-- Modelled from the spec: `splitCommands` — tokenize the line once,
partition the token stream into groups delimited by ";" tokens,
discarding the delimiter and any resulting empty group. -/
def splitCommands (raw : String) : List (List String) :=
  ((tokenize raw).splitOn ";").filter (fun g => !g.isEmpty)

/-! ## Command lifecycle (src/src/core/helpers/commands.py)

A handler run is abstracted by the observable behaviour of its stages:
whether `init`/`setup`/`run`/`close` raise, whether a parser was created
by `init` and requested exit during `setup`, and the handler status
after `init` resp. after `run`.  The default `setup`, `close`, `exit`
and `fail_safe` bodies are embedded from the source below. -/

/-- The six lifecycle stages of `CommandInterface`. -/
inductive Stage where
  | initStage
  | setupStage
  | runStage
  | closeStage
  | exitStage
  | failSafeStage
deriving DecidableEq

/-- One handler run, abstracted by the behaviour of its stages. -/
structure HandlerSpec where
  /-- `self.status` after `init()` returns (`None` at construction). -/
  statusAfterInit : Option Int
  /-- whether `init()` created `self.parser` (otherwise it is `None`). -/
  hasParser : Bool
  /-- value of `self.parser.exit_execution` after `parse_args`. -/
  exitExecution : Bool
  /-- `self.status` when `run()` returns normally. -/
  statusAfterRun : Option Int
  initRaises : Bool
  setupRaises : Bool
  runRaises : Bool
  closeRaises : Bool
deriving DecidableEq

/-- Embedded from `CommandInterface.setup` (commands.py, lines 143-156):
with no parser the attribute access raises `AttributeError`, which is
caught, leaving the status unchanged; with a parser whose
`exit_execution` flag is set after parsing, the status is forced to
`STATUS_ERR`. -/
def setupEffect (hasParser exitExecution : Bool) (status : Option Int) : Option Int :=
  if hasParser && exitExecution then some STATUS_ERR else status

/-- Embedded from `CommandInterface.exit` (commands.py): returns
`self.status if self.status else STATUS_OK`; Python truthiness maps
both `None` and `0` to `STATUS_OK`. -/
def exitEffect : Option Int → Int
  | some n => if n ≠ 0 then n else STATUS_OK
  | none => STATUS_OK

/-- Embedded from `CommandInterface.fail_safe` (commands.py, lines
191-221): it sets `self.status = STATUS_ERR`; the dispatcher then reads
this status as the final one. -/
def failSafeStatus : Int := STATUS_ERR

/-- The abort condition of the driving sequence, evaluated after
`setup()`: `command.status == STATUS_ERR or command.parser and
command.parser.exit_execution`. -/
def abortRequested (h : HandlerSpec) : Bool :=
  (setupEffect h.hasParser h.exitExecution h.statusAfterInit == some STATUS_ERR) ||
  (h.hasParser && h.exitExecution)

/-- Outcome of one dispatcher-driven handler run: stages invoked in
order, the final status returned, and the number of crash-report
diagnostic artifacts written (`fail_safe` writes exactly one via
`write_error_log`). -/
structure DriveResult where
  trace : List Stage
  finalStatus : Int
  diagnostics : Nat
deriving DecidableEq

/-- Modelled from the spec: the Dispatcher's driving sequence (spec
section 4.3) — the dispatcher module itself is not under src/; the
sequence is reproduced verbatim as the execution-flow block in the
`CommandInterface` docstring (commands.py, lines 46-68): `init()`,
`setup()`, the abort check, `run()`, `close()`, `exit()`, all wrapped
in a fault boundary that delegates any escaping exception to
`fail_safe` and returns the status `fail_safe` forced. -/
def drive (h : HandlerSpec) : DriveResult :=
  if h.initRaises then
    ⟨[.initStage, .failSafeStage], failSafeStatus, 1⟩
  else if h.setupRaises then
    ⟨[.initStage, .setupStage, .failSafeStage], failSafeStatus, 1⟩
  else if abortRequested h then
    if h.closeRaises then
      ⟨[.initStage, .setupStage, .closeStage, .failSafeStage], failSafeStatus, 1⟩
    else
      ⟨[.initStage, .setupStage, .closeStage, .exitStage],
        exitEffect (setupEffect h.hasParser h.exitExecution h.statusAfterInit), 0⟩
  else if h.runRaises then
    ⟨[.initStage, .setupStage, .runStage, .failSafeStage], failSafeStatus, 1⟩
  else if h.closeRaises then
    ⟨[.initStage, .setupStage, .runStage, .closeStage, .failSafeStage], failSafeStatus, 1⟩
  else
    ⟨[.initStage, .setupStage, .runStage, .closeStage, .exitStage],
      exitEffect h.statusAfterRun, 0⟩

/-! ## Severity-gated logging (commands.py, lines 229-304)

Each logging helper writes its message only under the guard
`self.log_level <= LEVEL`; `critical`/`fatal`/`error` then set
`self.status = STATUS_ERR` unconditionally, `warning` sets it to
`STATUS_WARN` (a constant the source imports from processes.py, where
it is not defined — modelled as an arbitrary parameter), and
`info`/`debug` leave it unchanged. -/

def Levels_CRITICAL : Int := 50

def Levels_FATAL : Int := 50

def Levels_ERROR : Int := 40

def Levels_WARNING : Int := 30

def Levels_INFO : Int := 20

def Levels_DEBUG : Int := 10

def Levels_NOTSET : Int := 0

/-- Handler state seen by the logging helpers: the configured
threshold, the status, and the messages written to the bound output
and error streams. -/
structure LogState where
  log_level : Int
  status : Option Int
  stdoutMsgs : List String
  stderrMsgs : List String
deriving DecidableEq

/-- Embedded from `CommandInterface.critical`. -/
def criticalCall (s : LogState) (msg : String) : LogState :=
  { s with
    stderrMsgs :=
      if s.log_level ≤ Levels_CRITICAL then s.stderrMsgs ++ [msg] else s.stderrMsgs,
    status := some STATUS_ERR }

/-- Embedded from `CommandInterface.fatal`. -/
def fatalCall (s : LogState) (msg : String) : LogState :=
  { s with
    stderrMsgs :=
      if s.log_level ≤ Levels_FATAL then s.stderrMsgs ++ [msg] else s.stderrMsgs,
    status := some STATUS_ERR }

/-- Embedded from `CommandInterface.error`. -/
def errorCall (s : LogState) (msg : String) : LogState :=
  { s with
    stderrMsgs :=
      if s.log_level ≤ Levels_ERROR then s.stderrMsgs ++ [msg] else s.stderrMsgs,
    status := some STATUS_ERR }

/-- Embedded from `CommandInterface.warning`; both branches of its
`to_stdout` flag write through `self.print`, i.e. to stdout.  The
`STATUS_WARN` value it stores is the parameter `statusWarnVal` (see the
section comment). -/
def warningCall (statusWarnVal : Int) (s : LogState) (msg : String) : LogState :=
  { s with
    stdoutMsgs :=
      if s.log_level ≤ Levels_WARNING then s.stdoutMsgs ++ [msg] else s.stdoutMsgs,
    status := some statusWarnVal }

/-- Embedded from `CommandInterface.info`. -/
def infoCall (s : LogState) (msg : String) : LogState :=
  { s with
    stdoutMsgs :=
      if s.log_level ≤ Levels_INFO then s.stdoutMsgs ++ [msg] else s.stdoutMsgs }

/-- Embedded from `CommandInterface.debug`. -/
def debugCall (s : LogState) (msg : String) : LogState :=
  { s with
    stdoutMsgs :=
      if s.log_level ≤ Levels_DEBUG then s.stdoutMsgs ++ [msg] else s.stdoutMsgs }

/-- `true` exactly when the call appended `msg` to the stream: the
observable form of "the message was emitted". -/
def appendedMsg (before after : List String) (msg : String) : Bool :=
  after == before ++ [msg]

/-! ## Stream ownership and `close()` (commands.py, lines 90-109 and 167-180)

Python stream objects are embedded by identity as `Nat` identifiers;
`!=` on text streams is identity inequality. -/

def sysStdoutId : Nat := 0

def sysStderrId : Nat := 1

def sysStdinId : Nat := 2

/-- The three stream bindings of a handler instance. -/
structure StreamBindings where
  stdout : Nat
  stderr : Nat
  stdin : Nat
deriving DecidableEq

/-- Embedded from `CommandInterface.__init__` defaults (commands.py,
lines 90-96): `stdout=sys.stdout`, `stderr=sys.stdout`,
`stdin=sys.stdin` — note the stderr default is the process stdout in
the source. -/
def defaultBindings : StreamBindings :=
  { stdout := sysStdoutId, stderr := sysStdoutId, stdin := sysStdinId }

/-- Embedded from `CommandInterface.close` (commands.py, lines
167-180): the streams on which `.close()` is invoked — each bound
stream that is not the correspondingly named process stream. -/
def closeReleased (b : StreamBindings) : List Nat :=
  (if b.stdout ≠ sysStdoutId then [b.stdout] else []) ++
  (if b.stderr ≠ sysStderrId then [b.stderr] else []) ++
  (if b.stdin ≠ sysStdinId then [b.stdin] else [])

/-! ## Job registry (src/src/core/system/processes.py) -/

/-- Outcome of `Process._run` on the job thread. -/
structure JobRunResult where
  trace : List Stage
  jobStatus : Option Int
  escaped : Bool
deriving DecidableEq

/-- Embedded from `Process._run` (processes.py, lines 44-48): the
thread body invokes `init()`, `run(line_args)`, `close()`, then stores
`exit()` into `Process.status`.  There is no `setup()` call and no
try/except around the body: an exception raised by any stage escapes
the function (`escaped`), and `Process.status` is left unset. -/
def jobRun (h : HandlerSpec) : JobRunResult :=
  if h.initRaises then ⟨[.initStage], none, true⟩
  else if h.runRaises then ⟨[.initStage, .runStage], none, true⟩
  else if h.closeRaises then ⟨[.initStage, .runStage, .closeStage], none, true⟩
  else ⟨[.initStage, .runStage, .closeStage, .exitStage],
        some (exitEffect h.statusAfterRun), false⟩

/-- Program counter of the job thread executing `Process._run`:
`done` is reached when the final statement (the assignment of `exit()`
to `Process.status`) has completed and the thread body has returned;
`faulted` when a stage raised and the body was abandoned. -/
inductive JobPC where
  | start
  | afterInit
  | afterRun
  | afterClose
  | done
  | faulted
deriving DecidableEq

/-- State of one job thread: program counter plus the `Process.status`
field (`None` at construction, `Process.__init__`, processes.py lines
14-22). -/
structure JobThreadState where
  pc : JobPC
  status : Option Int
deriving DecidableEq

def jobThreadStart : JobThreadState := { pc := .start, status := none }

/-- Small-step version of `Process._run`: one statement per step; the
status assignment happens in the final transition, after which the
thread body has returned (`done`). -/
def jobStep (h : HandlerSpec) : JobThreadState → JobThreadState
  | { pc := .start, status := st } =>
      if h.initRaises then { pc := .faulted, status := st }
      else { pc := .afterInit, status := st }
  | { pc := .afterInit, status := st } =>
      if h.runRaises then { pc := .faulted, status := st }
      else { pc := .afterRun, status := st }
  | { pc := .afterRun, status := st } =>
      if h.closeRaises then { pc := .faulted, status := st }
      else { pc := .afterClose, status := st }
  | { pc := .afterClose, status := _ } =>
      { pc := .done, status := some (exitEffect h.statusAfterRun) }
  | { pc := .done, status := st } => { pc := .done, status := st }
  | { pc := .faulted, status := st } => { pc := .faulted, status := st }

def jobStepN (h : HandlerSpec) : Nat → JobThreadState
  | 0 => jobThreadStart
  | n + 1 => jobStep h (jobStepN h n)

/-- The job thread has finished: its body returned or was abandoned by
an escaping exception. -/
def threadFinished (s : JobThreadState) : Bool :=
  s.pc == .done || s.pc == .faulted

/-- One registry entry as `clean`/`find`/`remove` observe it: the
`Process.id` field and the liveness of its thread. -/
structure PJob where
  pid : Option Int
  alive : Bool
deriving DecidableEq

/-- Embedded from `Processes.clean` (processes.py, lines 93-102): a
`for p in self.processes` loop that calls `self.processes.remove(p)` on
dead entries.  This transcribes the CPython list-iterator semantics:
the iterator holds a cursor that advances each iteration, and removing
the just-yielded element (elements are identity-distinct `Process`
objects, so `remove` deletes it at its own position) shifts the
remainder left, so the element after a removed one is skipped. -/
def cleanAux (l : List PJob) (i : Nat) : List PJob :=
  if h : i < l.length then
    if (l.get ⟨i, h⟩).alive then cleanAux l (i + 1)
    else cleanAux (l.eraseIdx i) (i + 1)
  else l
termination_by l.length - i
decreasing_by
  all_goals simp [List.length_eraseIdx, h]
  all_goals omega

def clean (l : List PJob) : List PJob := cleanAux l 0

/-- Embedded from `Processes.list` (processes.py, lines 61-64): returns
a copy of the internal sequence — same elements, fresh container. -/
def listSnapshot (l : List PJob) : List PJob := l

/-- Embedded from `Processes.find` (processes.py): first entry whose
`id` equals the argument, else absent. -/
def findJob (l : List PJob) (i : Int) : Option PJob :=
  l.find? (fun p => p.pid == some i)

/-- Embedded from `Processes.remove` (processes.py): removes and
returns the first entry whose `id` equals the argument; absent and no
change otherwise. -/
def removeJob : List PJob → Int → Option PJob × List PJob
  | [], _ => (none, [])
  | p :: ps, i =>
      if p.pid == some i then (some p, ps)
      else
        let r := removeJob ps i
        (r.1, p :: r.2)

/-- Embedded from `Process.run` (processes.py, lines 37-41): starts the
daemon thread and then overwrites `self.id` with the started thread's
`native_id`. -/
def processRun (nativeId : Int) (p : PJob) : PJob :=
  { p with pid := some nativeId, alive := true }

/-- Embedded from `Processes.add` (processes.py, lines 73-78): appends
a fresh `Process` (id `None`), assigns the formula-generated identifier
to the appended entry, prints that identifier to the caller, and then
calls the entry's `run()`, which overwrites the identifier with the
thread's native id.  The generated pid and the native thread id are
environment inputs, taken as parameters. -/
def processesAdd (regs : List PJob) (genPid nativeId : Int) : List PJob × Int :=
  let appended : PJob := { pid := none, alive := false }
  let assigned : PJob := { appended with pid := some genPid }
  let printed : Int := genPid
  let started : PJob := processRun nativeId assigned
  (regs ++ [started], printed)


/-- A handler run whose `run()` raises and whose other stages behave
normally: no parser abort, no other faults. -/
def hRunFault : HandlerSpec :=
  { statusAfterInit := none
    hasParser := true
    exitExecution := false
    statusAfterRun := none
    initRaises := false
    setupRaises := false
    runRaises := true
    closeRaises := false }

/-- A fully well-behaved handler run: parser present, no abort, no
stage raises, `run()` leaves the status unset. -/
def hNormal : HandlerSpec :=
  { statusAfterInit := none
    hasParser := true
    exitExecution := false
    statusAfterRun := none
    initRaises := false
    setupRaises := false
    runRaises := false
    closeRaises := false }

/-- A handler run whose `setup()` requests an abort through the
parser's `exit_execution` flag. -/
def hAbort : HandlerSpec :=
  { statusAfterInit := none
    hasParser := true
    exitExecution := true
    statusAfterRun := none
    initRaises := false
    setupRaises := false
    runRaises := false
    closeRaises := false }

/-- Two registry entries whose threads have both finished. -/
def deadJob1 : PJob := { pid := some 1, alive := false }

def deadJob2 : PJob := { pid := some 2, alive := false }


/-! ## Theorems -/

/-- Helper: filtering with a predicate leaves only elements satisfying
it. -/
theorem filter_all_self {α : Type} (p : α → Bool) (l : List α) :
    (l.filter p).all p = true := by
  induction l with
  | nil => rfl
  | cons a l ih => cases hp : p a <;> simp [List.filter_cons, hp, ih]

/-- Helper: `appendedMsg` applied to a conditional append reads back
the condition. -/
theorem appendedMsg_ite (before : List String) (msg : String) (P : Prop) [Decidable P] :
    appendedMsg before (if P then before ++ [msg] else before) msg = decide P := by
  by_cases h : P
  · simp [appendedMsg, h]
  · simp [appendedMsg, h]

/-- Helper: invariant of the job-thread machine — before the terminal
transition the `Process.status` field is still `None`. -/
theorem jobStepN_status_invariant (h : HandlerSpec) (n : Nat) :
    (jobStepN h n).status = none ∨ (jobStepN h n).pc = JobPC.done := by
  induction n with
  | zero => exact Or.inl rfl
  | succ n ih =>
    have hstep : jobStepN h (n + 1) = jobStep h (jobStepN h n) := rfl
    rcases hs : jobStepN h n with ⟨pc, st⟩
    rw [hs] at ih
    rw [hstep, hs]
    cases pc
    case start =>
      have hst : st = none := ih.resolve_right (by simp)
      cases hI : h.initRaises <;> simp [jobStep, hI, hst]
    case afterInit =>
      have hst : st = none := ih.resolve_right (by simp)
      cases hR : h.runRaises <;> simp [jobStep, hR, hst]
    case afterRun =>
      have hst : st = none := ih.resolve_right (by simp)
      cases hC : h.closeRaises <;> simp [jobStep, hC, hst]
    case afterClose => simp [jobStep]
    case done => simp [jobStep]
    case faulted =>
      have hst : st = none := ih.resolve_right (by simp)
      simp [jobStep, hst]

/-- Helper: `Processes.find` misses when no entry carries the id. -/
theorem findJob_eq_none (l : List PJob) (i : Int) :
    (∀ p ∈ l, p.pid ≠ some i) → findJob l i = none := by
  induction l with
  | nil => exact fun _ => rfl
  | cons p ps ih =>
    intro h
    have hp : p.pid ≠ some i := h p (by simp)
    have hps : findJob ps i = none := ih (fun q hq => h q (by simp [hq]))
    simp only [findJob, List.find?_cons] at hps ⊢
    rw [beq_eq_false_iff_ne.mpr hp]
    exact hps

/-- Helper: `Processes.remove` misses when no entry carries the id. -/
theorem removeJob_fst_eq_none (l : List PJob) (i : Int) :
    (∀ p ∈ l, p.pid ≠ some i) → (removeJob l i).1 = none := by
  induction l with
  | nil => exact fun _ => rfl
  | cons p ps ih =>
    intro h
    have hp : p.pid ≠ some i := h p (by simp)
    have hps : (removeJob ps i).1 = none := ih (fun q hq => h q (by simp [hq]))
    simp [removeJob, hp]
    exact hps

/-- Helper: the last entry of a registry after an append. -/
theorem getLast?_append_singleton {α : Type} (l : List α) (a : α) :
    (l ++ [a]).getLast? = some a := by
  simp

/-- C1: for every handler run driven by the dispatcher, if an exception
escapes `run()` then `fail_safe` is invoked exactly once, the final
status equals the error code `STATUS_ERR`, exactly one diagnostic
artifact (crash report) is recorded, and the normal `close()`/`exit()`
path is never invoked. -/
theorem fail_safe_on_run_exception (h : HandlerSpec)
    (h1 : h.initRaises = false) (h2 : h.setupRaises = false)
    (h3 : abortRequested h = false) (h4 : h.runRaises = true) :
    (drive h).trace.count Stage.failSafeStage = 1 ∧
    (drive h).finalStatus = STATUS_ERR ∧
    (drive h).diagnostics = 1 ∧
    (drive h).trace.contains Stage.closeStage = false ∧
    (drive h).trace.contains Stage.exitStage = false := by
  have hd : drive h = ⟨[.initStage, .setupStage, .runStage, .failSafeStage],
      failSafeStatus, 1⟩ := by
    simp [drive, h1, h2, h3, h4]
  rw [hd]
  decide

/-- Witness for C1 at the concrete handler `hRunFault`. -/
theorem fail_safe_on_run_exception_witness :
    (hRunFault.initRaises = false ∧ hRunFault.setupRaises = false ∧
      abortRequested hRunFault = false ∧ hRunFault.runRaises = true) ∧
    ((drive hRunFault).trace.count Stage.failSafeStage = 1 ∧
      (drive hRunFault).finalStatus = STATUS_ERR ∧
      (drive hRunFault).diagnostics = 1 ∧
      (drive hRunFault).trace.contains Stage.closeStage = false ∧
      (drive hRunFault).trace.contains Stage.exitStage = false) :=
  ⟨by decide,
    fail_safe_on_run_exception hRunFault (by decide) (by decide) (by decide) (by decide)⟩

/-- C2: for every handler run in which no stage raises, the dispatcher
drives the stages in the exact order `init()`, `setup()`, then — if the
abort condition holds after `setup()` — `close()` exactly once followed
by `exit()`, with `run()` never invoked; otherwise `run()`, `close()`,
`exit()`. -/
theorem lifecycle_stage_order (h : HandlerSpec)
    (h1 : h.initRaises = false) (h2 : h.setupRaises = false)
    (h3 : h.runRaises = false) (h4 : h.closeRaises = false) :
    (drive h).trace =
      (if abortRequested h then
        [Stage.initStage, Stage.setupStage, Stage.closeStage, Stage.exitStage]
      else
        [Stage.initStage, Stage.setupStage, Stage.runStage, Stage.closeStage,
          Stage.exitStage]) ∧
    (drive h).trace.count Stage.closeStage = 1 ∧
    (drive h).trace.count Stage.exitStage = 1 := by
  cases habort : abortRequested h
  · have hd : drive h = ⟨[.initStage, .setupStage, .runStage, .closeStage, .exitStage],
        exitEffect h.statusAfterRun, 0⟩ := by
      simp [drive, h1, h2, h3, h4, habort]
    rw [hd]
    simp
  · have hd : drive h = ⟨[.initStage, .setupStage, .closeStage, .exitStage],
        exitEffect (setupEffect h.hasParser h.exitExecution h.statusAfterInit), 0⟩ := by
      simp [drive, h1, h2, h4, habort]
    rw [hd]
    simp

/-- Witness for C2 at the concrete aborting handler `hAbort`. -/
theorem lifecycle_stage_order_witness :
    (hAbort.initRaises = false ∧ hAbort.setupRaises = false ∧
      hAbort.runRaises = false ∧ hAbort.closeRaises = false) ∧
    ((drive hAbort).trace =
      (if abortRequested hAbort then
        [Stage.initStage, Stage.setupStage, Stage.closeStage, Stage.exitStage]
      else
        [Stage.initStage, Stage.setupStage, Stage.runStage, Stage.closeStage,
          Stage.exitStage]) ∧
      (drive hAbort).trace.count Stage.closeStage = 1 ∧
      (drive hAbort).trace.count Stage.exitStage = 1) :=
  ⟨by decide,
    lifecycle_stage_order hAbort (by decide) (by decide) (by decide) (by decide)⟩

/-- C3 counterexample: the handler `hRunFault`, backgrounded through the
registry, is driven by `Process._run` without `setup()` and without a
fault boundary — its `run()` exception escapes the thread body
(`escaped = true`) and `fail_safe` is never invoked, refuting the claim
that jobs receive the full six-stage lifecycle with contained faults. -/
theorem job_thread_skips_lifecycle_counterexample :
    jobRun hRunFault = ⟨[Stage.initStage, Stage.runStage], none, true⟩ ∧
    (jobRun hRunFault).trace.contains Stage.setupStage = false ∧
    (jobRun hRunFault).trace.contains Stage.failSafeStage = false ∧
    (jobRun hRunFault).escaped = true := by decide

/-- C3 amended: for every backgrounded handler, `Process._run` drives
only `init()`, `run(line_args)`, `close()`, `exit()` — `setup()` is
never invoked and there is no fault boundary (`fail_safe` never
appears); an exception raised by any stage escapes the thread body
exactly when some stage raises. -/
theorem job_thread_lifecycle_amended (h : HandlerSpec) :
    (jobRun h).trace.contains Stage.setupStage = false ∧
    (jobRun h).trace.contains Stage.failSafeStage = false ∧
    (jobRun h).escaped = (h.initRaises || h.runRaises || h.closeRaises) := by
  rcases h with ⟨sai, hp, ee, sar, ir, sr, rr, cr⟩
  cases ir <;> cases rr <;> cases cr <;> simp [jobRun]

/-- C4: code-bug demonstration — `Processes.clean` removes entries from
the list it is iterating, so with two adjacently finished jobs the
second survives the sweep: after `clean()`, `list()` still contains a
job whose thread has finished, contradicting the claim (and the
function's own docstring). -/
theorem clean_misses_adjacent_finished_job :
    clean [deadJob1, deadJob2] = [deadJob2] ∧
    (listSnapshot (clean [deadJob1, deadJob2])).contains deadJob2 = true ∧
    deadJob2.alive = false := by
  refine ⟨?_, ?_, rfl⟩
  · simp [clean, cleanAux, deadJob1, deadJob2]
  · have hc : clean [deadJob1, deadJob2] = [deadJob2] := by
      simp [clean, cleanAux, deadJob1, deadJob2]
    rw [listSnapshot, hc]
    decide

/-- C5: at every point of a job thread's execution, if the thread has
not finished (its body neither returned nor was abandoned by an
exception), the Job's `status` field is still `None`: the status is
assigned only by the final statement of `Process._run`. -/
theorem job_status_absent_while_thread_alive (h : HandlerSpec) (n : Nat)
    (hAlive : threadFinished (jobStepN h n) = false) :
    (jobStepN h n).status = none := by
  rcases jobStepN_status_invariant h n with h1 | h2
  · exact h1
  · exfalso
    rw [threadFinished, h2] at hAlive
    simp at hAlive

/-- Witness for C5 at the concrete handler `hNormal`, two steps in. -/
theorem job_status_absent_while_thread_alive_witness :
    threadFinished (jobStepN hNormal 2) = false ∧
    (jobStepN hNormal 2).status = none :=
  ⟨by decide, job_status_absent_while_thread_alive hNormal 2 (by decide)⟩

/-- C6: `tokenize` splits operators from adjacent word characters even
without surrounding whitespace and lower-cases only element 0:
`tokenize "ls 2>/dev/null" = ["ls", "2>", "/dev/null"]` and
`tokenize "LS -R" = ["ls", "-R"]`; for every input, every element
after the first is exactly the raw scanned token, and the first is its
lower-casing. -/
theorem tokenize_operator_split_and_lowercase :
    tokenize "ls 2>/dev/null" = ["ls", "2>", "/dev/null"] ∧
    tokenize "LS -R" = ["ls", "-R"] ∧
    ∀ raw : String,
      (tokenize raw).tail = (scanToks raw.toList []).tail ∧
      (tokenize raw).head? = (scanToks raw.toList []).head?.map lowerStr := by
  refine ⟨by decide, by decide, fun raw => ?_⟩
  cases hsc : scanToks raw.toList [] <;> simp [String.toList] at hsc <;>
    simp [tokenize, String.toList, hsc]

/-- C7: `splitCommands` partitions the tokenized line on ";" tokens and
never produces an empty group: leading, trailing, and consecutive
separators are discarded, as on the two concrete inputs of the claim,
and for every input every produced group is nonempty. -/
theorem split_commands_drops_separators_and_empties :
    splitCommands "echo test;ls;;" = [["echo", "test"], ["ls"]] ∧
    splitCommands ";echo test;ls;" = [["echo", "test"], ["ls"]] ∧
    ∀ raw : String, (splitCommands raw).all (fun g => !g.isEmpty) = true := by
  refine ⟨by decide, by decide, fun raw => ?_⟩
  have hf := filter_all_self (fun g : List String => !g.isEmpty)
    ((tokenize raw).splitOn ";")
  simp only [splitCommands]
  exact hf

/-- C8: for every handler state and message, each logging helper emits
its message exactly when the configured `log_level` threshold is at or
below the message's severity, and a `critical`/`fatal`/`error` call
additionally forces the handler status to the error code. -/
theorem logging_severity_gate (s : LogState) (msg : String) (statusWarnVal : Int) :
    appendedMsg s.stderrMsgs (criticalCall s msg).stderrMsgs msg =
      decide (s.log_level ≤ Levels_CRITICAL) ∧
    appendedMsg s.stderrMsgs (fatalCall s msg).stderrMsgs msg =
      decide (s.log_level ≤ Levels_FATAL) ∧
    appendedMsg s.stderrMsgs (errorCall s msg).stderrMsgs msg =
      decide (s.log_level ≤ Levels_ERROR) ∧
    appendedMsg s.stdoutMsgs (warningCall statusWarnVal s msg).stdoutMsgs msg =
      decide (s.log_level ≤ Levels_WARNING) ∧
    appendedMsg s.stdoutMsgs (infoCall s msg).stdoutMsgs msg =
      decide (s.log_level ≤ Levels_INFO) ∧
    appendedMsg s.stdoutMsgs (debugCall s msg).stdoutMsgs msg =
      decide (s.log_level ≤ Levels_DEBUG) ∧
    (criticalCall s msg).status = some STATUS_ERR ∧
    (fatalCall s msg).status = some STATUS_ERR ∧
    (errorCall s msg).status = some STATUS_ERR :=
  ⟨appendedMsg_ite s.stderrMsgs msg _,
    appendedMsg_ite s.stderrMsgs msg _,
    appendedMsg_ite s.stderrMsgs msg _,
    appendedMsg_ite s.stdoutMsgs msg _,
    appendedMsg_ite s.stdoutMsgs msg _,
    appendedMsg_ite s.stdoutMsgs msg _,
    rfl, rfl, rfl⟩

/-- C9: code-bug demonstration — a handler constructed with all default
stream bindings owns no explicitly opened stream, yet `close()` invokes
`.close()` on the process standard output: the `__init__` default binds
`stderr` to `sys.stdout`, and `close()` compares that binding against
`sys.stderr`, finds them different, and closes it. -/
theorem close_closes_process_stdout :
    closeReleased defaultBindings = [sysStdoutId] := by decide

/-- C10: after `Processes.add`, the stored job's `id` equals the native
id of the thread started by `Process.run`, which overwrites the
formula-generated identifier that `add` assigned and printed;
consequently, when the native id differs from the printed identifier
(and no older job carries it), `find`/`remove` with the printed
identifier return absent. -/
theorem processes_add_native_id_overwrites (regs : List PJob) (genPid nativeId : Int)
    (hfresh : ∀ p ∈ regs, p.pid ≠ some genPid) (hne : nativeId ≠ genPid) :
    ((processesAdd regs genPid nativeId).1.getLast?).map PJob.pid =
      some (some nativeId) ∧
    (processesAdd regs genPid nativeId).2 = genPid ∧
    findJob (processesAdd regs genPid nativeId).1
      ((processesAdd regs genPid nativeId).2) = none ∧
    (removeJob (processesAdd regs genPid nativeId).1
      ((processesAdd regs genPid nativeId).2)).1 = none := by
  have hpa : processesAdd regs genPid nativeId =
      (regs ++ [{ pid := some nativeId, alive := true }], genPid) := rfl
  have hall : ∀ p ∈ regs ++ [({ pid := some nativeId, alive := true } : PJob)],
      p.pid ≠ some genPid := by
    intro p hp
    rcases List.mem_append.mp hp with hm | hm
    · exact hfresh p hm
    · have hpeq : p = { pid := some nativeId, alive := true } := by simpa using hm
      rw [hpeq]
      simpa using hne
  rw [hpa]
  refine ⟨?_, rfl, ?_, ?_⟩
  · rw [getLast?_append_singleton]
    rfl
  · exact findJob_eq_none _ _ hall
  · exact removeJob_fst_eq_none _ _ hall

/-- Witness for C10 on an empty registry with generated pid 5 and
native thread id 7. -/
theorem processes_add_native_id_overwrites_witness :
    ((∀ p ∈ ([] : List PJob), p.pid ≠ some 5) ∧ (7 : Int) ≠ 5) ∧
    (((processesAdd [] 5 7).1.getLast?).map PJob.pid = some (some 7) ∧
      (processesAdd [] 5 7).2 = 5 ∧
      findJob (processesAdd [] 5 7).1 ((processesAdd [] 5 7).2) = none ∧
      (removeJob (processesAdd [] 5 7).1 ((processesAdd [] 5 7).2)).1 = none) :=
  ⟨⟨by simp, by decide⟩,
    processes_add_native_id_overwrites [] 5 7 (by simp) (by decide)⟩
